import Mathlib

/-!
Shallow embedding of the news-app social-media pipeline (TypeScript source)
and proofs of the specification claims about it.

The embedding covers:
* the photo-platform publish retry loop (`src/lib/instagram.ts`, `postToInstagram`);
* the Redis-backed deduplication store (`src/app/api/fetch-news/route.ts`,
  `readUsedHeadlines` / `appendUsedHeadlines`);
* the selection post-processing loop of the fetch-news `GET` handler;
* caption construction and the microblog-platform caption truncation
  (`src/app/api/post-x/route.ts`);
* the multi-post publish orchestrator (`POST` handlers of the
  post-instagram / post-instagram-reels routes, fetch-and-post-all `GET`);
* the quiz pipelines (`src/app/lib/go-quiz.ts`, `generateGoQuizLogic`, and
  the identical `generatePythonQuizLogic`).
-/

set_option maxRecDepth 4000

namespace NewsApp

/-! ### Photo-platform publish retry loop (`src/lib/instagram.ts`)

`postToInstagram` publishes a previously created media container in a loop:

```
let attempts = 0; const maxAttempts = 5;
while (attempts < maxAttempts) {
  publishResponse = await fetch(publishUrl, ...);
  if (publishResponse.ok) break;
  errorData = await publishResponse.text();
  try {
    const errorObj = JSON.parse(errorData);
    if (errorObj.error && (errorObj.error.code === 9007 || errorObj.error.code === 100)) {
      attempts++;
      if (attempts < maxAttempts) {
        const waitTime = Math.min(5000 * attempts, 30000);
        await delay(waitTime);
      }
    } else break;
  } catch (parseError) { break; }
}
```

Each loop iteration performs exactly one publish request; `attempts` is
incremented only on a parsed "media still processing" error (code 9007 or
100), so at the head of every iteration the number of requests already made
equals `attempts`.  The loop is modelled by structural recursion on
`fuel = maxAttempts - attempts`, with the network modelled as an oracle
giving the outcome of the publish request made at each attempt index. -/

/-- Outcome of one publish HTTP request, as observed by the loop:
`ok` is `publishResponse.ok`; `err (some c)` is a non-ok response whose body
parses as JSON with structured error code `c`; `err none` is a non-ok
response whose body fails to parse (the `catch (parseError)` path, which in
the source also covers a parsed body without an `error` field). -/
inductive PublishResult where
  | ok : PublishResult
  | err : Option Int → PublishResult
deriving Repr, DecidableEq

/-- `errorObj.error.code === 9007 || errorObj.error.code === 100`. -/
def isProcessingCode (c : Int) : Bool :=
  c == 9007 || c == 100

/-- Whether a publish outcome takes the retry branch of the loop:
a parsed structured error whose code is 9007 or 100. -/
def isProcessingError : PublishResult → Bool
  | PublishResult.err (some c) => isProcessingCode c
  | _ => false

/-- `const maxAttempts = 5;` -/
def maxAttempts : Nat := 5

/-- Observable result of the publish retry loop: the number of publish
requests made, the list of waits (in ms, in order) performed between
attempts, and whether the final response was ok. -/
structure PublishLoopResult where
  calls : Nat
  waits : List Nat
  finalOk : Bool
deriving Repr, DecidableEq

/-- The publish retry loop body, by structural recursion on
`fuel = maxAttempts - attempts`.  `attempts` is the current value of the
source's counter, which also indexes the oracle (the `attempts`-th publish
request made).  `fuel = 0` is the loop condition `attempts < maxAttempts`
failing: the loop exits with the last (non-ok) response. -/
def publishLoopGo (oracle : Nat → PublishResult) : Nat → Nat → PublishLoopResult
  | 0, _ => ⟨0, [], false⟩
  | fuel + 1, attempts =>
    match oracle attempts with
    | PublishResult.ok => ⟨1, [], true⟩
    | PublishResult.err c =>
      if (match c with | some code => isProcessingCode code | none => false) then
        -- attempts++ ; if attempts < maxAttempts then wait and loop again
        if fuel = 0 then
          ⟨1, [], false⟩
        else
          let rest := publishLoopGo oracle fuel (attempts + 1)
          ⟨1 + rest.calls, min (5000 * (attempts + 1)) 30000 :: rest.waits, rest.finalOk⟩
      else
        ⟨1, [], false⟩

/-- The publish retry loop of `postToInstagram`, entered with
`attempts = 0` and `maxAttempts = 5`. -/
def publishLoop (oracle : Nat → PublishResult) : PublishLoopResult :=
  publishLoopGo oracle maxAttempts 0

/-! ### Deduplication store (`src/app/api/fetch-news/route.ts`, Redis version)

```
async function readUsedHeadlines(): Promise<string[]> {
  try {
    const headlines = await redis.get<string[]>(USED_HEADLINES_KEY);
    const result = Array.isArray(headlines) ? headlines : [];
    return result;
  } catch (error) { return []; }
}

async function appendUsedHeadlines(headlines: string[]): Promise<void> {
  try {
    if (!headlines || headlines.length === 0) { return; }
    const existingHeadlines = await readUsedHeadlines();
    const updatedHeadlines = [...new Set([...existingHeadlines, ...headlines])];
    await redis.setex(USED_HEADLINES_KEY, 7 * 24 * 60 * 60, updatedHeadlines);
  } catch (error) { /- logged and swallowed -/ }
}
```

The backing store is modelled by the stored list plus explicit outcomes for
the one read (`redis.get`) and the one write (`redis.setex`) a call makes. -/

/-- JavaScript `[...new Set(xs)]`: remove duplicates keeping the first
occurrence of each element, preserving order. -/
def jsSetDedup (xs : List String) : List String :=
  xs.foldl (fun acc x => if x ∈ acc then acc else acc ++ [x]) []

/-- Outcome of a backing-store read: `ok (some v)` is a successful read of
value `v`; `ok none` is a successful read of a missing / non-array value;
`threw` is a thrown backing-store error. -/
inductive RedisReadOutcome (α : Type) where
  | ok : Option α → RedisReadOutcome α
  | threw : RedisReadOutcome α
deriving Repr, DecidableEq

/-- Outcome of a backing-store write (`redis.setex`). -/
inductive RedisWriteOutcome where
  | ok : RedisWriteOutcome
  | threw : RedisWriteOutcome
deriving Repr, DecidableEq

/-- The body of `readUsedHeadlines` before its `catch`: `redis.get` followed
by the `Array.isArray` check.  A thrown backing-store error escapes as
`Except.error`. -/
def readUsedHeadlinesBody : RedisReadOutcome (List String) → Except String (List String)
  | RedisReadOutcome.ok (some l) => Except.ok l
  | RedisReadOutcome.ok none => Except.ok []
  | RedisReadOutcome.threw => Except.error "Error reading used headlines from Redis"

/-- `readUsedHeadlines` with its `catch`: a thrown backing-store error is
swallowed and the empty list is returned. -/
def readUsedHeadlines (r : RedisReadOutcome (List String)) : List String :=
  match readUsedHeadlinesBody r with
  | Except.ok l => l
  | Except.error _ => []

/-- The pure state transform of a successful `appendUsedHeadlines` call on a
healthy store: the stored set after the call, given the stored set before.
An empty argument returns early without writing. -/
def appendUsedHeadlines (stored headlines : List String) : List String :=
  if headlines.isEmpty then stored
  else jsSetDedup (stored ++ headlines)

/-- The body of `appendUsedHeadlines` before its `catch`, with explicit
read/write outcomes: the early return on an empty argument, the (non-throwing)
`readUsedHeadlines` call, the `Set` union, and the `setex` write.  The result
is the stored value after the call; a thrown write escapes as `Except.error`. -/
def appendUsedHeadlinesBody (r : RedisReadOutcome (List String)) (w : RedisWriteOutcome)
    (stored headlines : List String) : Except String (List String) :=
  if headlines.isEmpty then Except.ok stored
  else
    let existing := readUsedHeadlines r
    let updated := jsSetDedup (existing ++ headlines)
    match w with
    | RedisWriteOutcome.ok => Except.ok updated
    | RedisWriteOutcome.threw => Except.error "Error appending to Redis"

/-- `appendUsedHeadlines` with its `catch`: any thrown error is logged and
swallowed, the call returns normally, and a failed write leaves the stored
value unchanged. -/
def appendUsedHeadlinesRun (r : RedisReadOutcome (List String)) (w : RedisWriteOutcome)
    (stored headlines : List String) : Except String (List String) :=
  match appendUsedHeadlinesBody r w stored headlines with
  | Except.ok s => Except.ok s
  | Except.error _ => Except.ok stored

/-- `posts.filter((post) => !usedHeadlines.includes(post.headline))` from the
fetch-news `GET` handler, on the headline keys. -/
def filterUnusedPosts (posts used : List String) : List String :=
  posts.filter (fun p => !(used.contains p))

/-! ### Selection post-processing (fetch-news `GET`, lines 666-730)

`callGemini` parses the model response, checks only `Array.isArray`, and
returns the items as-is.  The `GET` handler then iterates the selected posts:

```
for (const post of selectedPosts) {
  if (processedHeadlines.has(originalHeadline)) continue;
  processedHeadlines.add(originalHeadline);
  ... image generation ...
  if (isValidImage) { validPostPayloads.push({ ..., originalHeadline, ... }); }
}
```

No step compares `originalHeadline` against the candidate list that was sent
to the model. -/

/-- A parsed item of the model response, reduced to the fields the claims
depend on.  `hasValidImage` abstracts the image stage for this item: a valid
`imageUrl`, a successful `generateInstagramImage` upload, and the resulting
URL starting with `https` (`isValidImage` in the source). -/
structure GeminiPost where
  originalHeadline : String
  newHeadline : String
  hasValidImage : Bool
deriving Repr, DecidableEq

/-- `callGemini`: strip code fences, `JSON.parse`, check `Array.isArray`,
return the parsed items unchanged.  `none` models an unparsable or non-array
response (the thrown error). -/
def callGemini (response : Option (List GeminiPost)) : Except String (List GeminiPost) :=
  match response with
  | none => Except.error "Failed to select posts via Gemini"
  | some posts => Except.ok posts

/-- The per-post loop of the fetch-news `GET` handler: skip an
`originalHeadline` already processed, mark it processed, and keep it exactly
when its image stage succeeded.  Returns the `originalHeadline` keys of
`validPostPayloads`, in order — the list later passed to
`appendUsedHeadlines`. -/
def processSelectedGo : List GeminiPost → List String → List String
  | [], _ => []
  | p :: rest, seen =>
    if p.originalHeadline ∈ seen then processSelectedGo rest seen
    else if p.hasValidImage then
      p.originalHeadline :: processSelectedGo rest (seen ++ [p.originalHeadline])
    else
      processSelectedGo rest (seen ++ [p.originalHeadline])

/-- The per-post loop entered with an empty `processedHeadlines` set. -/
def processSelected (selected : List GeminiPost) : List String :=
  processSelectedGo selected []

/-! ### Caption construction and platform truncation

Caption construction (fetch-news `GET`, lines 678-688):

```
const hashtags = '#Entertainment #News ... #Trending';
const linkSection = link ? `\n\nRead more: ${link}` : '';
const hashtagSection = `\n\n${hashtags}`;
const reservedSpace = linkSection.length + hashtagSection.length + 10;
const maxDescriptionLength = 2200 - reservedSpace;
const truncatedDescription = words.slice(0, Math.floor(maxDescriptionLength / 6)).join(' ');
const presetCaption = link ? `${td}...${linkSection}${hashtagSection}`
                           : `${td}...${hashtagSection}`;
```

Platform truncation (`src/app/api/post-x/route.ts`, lines 157-158):

```
const truncatedCaption = caption.length > 280 ? caption.substring(0, 277) + '...' : caption;
```

Captions are modelled as `List Char`. -/

/-- The fixed hashtag block of the fetch-news caption. -/
def captionHashtags : List Char :=
  String.toList "#Entertainment #News #Celebs #Movies #Hollywood #Film #TV #Celebrity #Showbiz #Trending"

/-- `\n\n`. -/
def newline2 : List Char := ['\n', '\n']

/-- `Read more: `. -/
def readMoreLabel : List Char := String.toList "Read more: "

/-- The caption built by the fetch-news `GET` handler from a description and
an optional link: the description is split into words (`split(' ')`), a
prefix of the words bounded by the budget left after reserving space for the
link and hashtag sections is kept, and the trailing sections are appended
verbatim. -/
def buildCaption (description : List Char) (link : Option (List Char)) : List Char :=
  let hashtagSection := newline2 ++ captionHashtags
  let linkSection := match link with
    | some l => newline2 ++ readMoreLabel ++ l
    | none => []
  let reservedSpace := linkSection.length + hashtagSection.length + 10
  let maxDescriptionLength := 2200 - reservedSpace
  let words := description.splitOn ' '
  let truncatedDescription := List.intercalate [' '] (words.take (maxDescriptionLength / 6))
  truncatedDescription ++ String.toList "..." ++ linkSection ++ hashtagSection

/-- The microblog-platform caption truncation of the post-x `POST` handler:
captions over 280 characters become their first 277 characters followed by
`...`. -/
def truncateForX (caption : List Char) : List Char :=
  if caption.length > 280 then caption.take 277 ++ String.toList "..." else caption

/-! ### Multi-post publish orchestrator

`POST` of the post-instagram route (`src/unnamed/part_001`, lines 128-173)
and the identical aggregation of the post-instagram-reels route:

```
const results: InstagramPostResponse[] = [];
for (const [index, post] of body.posts.entries()) {
  const instagramPost = post.postPayload?.instagram;
  if (!instagramPost) { results.push({ success: false, error: ... }); continue; }
  const result = await postToInstagram(instagramPost, index);
  results.push(result);
  ...
}
const allSuccessful = results.every(result => result.success);
return NextResponse.json({ success: allSuccessful, results },
                         { status: allSuccessful ? 200 : 207 });
```

An entry of `body.posts` is modelled by whether its payload is present and,
when it is, by the success flag of the `postToInstagram` outcome. -/

/-- One element of the incoming `posts` array: `missing` when
`post.postPayload?.instagram` is absent; otherwise the success flag of the
publish outcome for that post. -/
inductive PostEntry where
  | missing : PostEntry
  | payload : Bool → PostEntry
deriving Repr, DecidableEq

/-- The per-post loop: one result is pushed for every entry, `false` for a
missing payload, otherwise the publish outcome. -/
def postResults : List PostEntry → List Bool
  | [] => []
  | PostEntry.missing :: rest => false :: postResults rest
  | PostEntry.payload ok :: rest => ok :: postResults rest

/-- The JSON envelope and HTTP status returned by the orchestrator. -/
structure OrchestratorResponse where
  success : Bool
  results : List Bool
  status : Nat
deriving Repr, DecidableEq

/-- The aggregation of the orchestrator `POST` handlers:
`success = results.every(r => r.success)`, the full `results` list in the
body, and status `200` when all succeeded, `207` otherwise. -/
def orchestratorResponse (entries : List PostEntry) : OrchestratorResponse :=
  let results := postResults entries
  let allSuccessful := results.all id
  ⟨allSuccessful, results, if allSuccessful then 200 else 207⟩

/-- The whole `POST` handler including its payload validation:
`!body.success || !Array.isArray(body.posts) || body.posts.length === 0`
returns status 400 before any publishing. -/
def postEndpoint (bodySuccess : Bool) (entries : List PostEntry) : OrchestratorResponse :=
  if !bodySuccess || entries.isEmpty then ⟨false, [], 400⟩
  else orchestratorResponse entries

/-- The envelope a platform sub-request returns to the fetch-and-post-all
`GET` handler: the platform's aggregate `success` flag and its `results`
array (absent when the sub-request failed before producing one). -/
structure PlatformEnvelope where
  success : Bool
  results : Option (List Bool)
deriving Repr, DecidableEq

/-- `instagramData.success && (instagramData.results ? instagramData.results.every(r => r.success) : false)`. -/
def envelopeAllOk (e : PlatformEnvelope) : Bool :=
  e.success && (match e.results with
    | some rs => rs.all id
    | none => false)

/-- The outcome classification of the fetch-and-post-all `GET` handler
(lines 101-114): `allSuccessful = instagramSuccess && xSuccess`, status 200
when all successful and 207 otherwise. -/
def fetchAndPostAllResponse (instagram x : PlatformEnvelope) : Bool × Nat :=
  let allSuccessful := envelopeAllOk instagram && envelopeAllOk x
  (allSuccessful, if allSuccessful then 200 else 207)

/-! ### Quiz pipelines (`src/app/lib/go-quiz.ts` and the Python variant)

`generateGoQuizLogic` (and the structurally identical
`generatePythonQuizLogic`):

```
let quizContent; let isUnique = false; let attempts = 0;
const usedQuizzes = await readUsedQuizzes();
while (!isUnique && attempts < 3) {
  quizContent = await generateQuizContent();
  const hash = Buffer.from(quizContent.code).toString('base64');
  if (!usedQuizzes.includes(hash)) { isUnique = true; await appendUsedQuiz(hash); }
  else { attempts++; }
}
if (!quizContent) { throw new Error('Failed to generate unique quiz content'); }
const imageBuffer = await generateQuizImage(quizContent);
... upload loop, up to 3 attempts ...
return { success: true, imageUrl: publicUrl, caption: ..., quizData: quizContent };
```

The fingerprint is the base64 (standard alphabet, UTF-8 bytes) of the quiz
code, as computed by `Buffer.from(code).toString('base64')`. -/

/-- UTF-8 encoding of one character, as a list of byte values. -/
def utf8CharBytes (c : Char) : List Nat :=
  let n := c.toNat
  if n < 128 then [n]
  else if n < 2048 then [192 + n / 64, 128 + n % 64]
  else if n < 65536 then [224 + n / 4096, 128 + (n / 64) % 64, 128 + n % 64]
  else [240 + n / 262144, 128 + (n / 4096) % 64, 128 + (n / 64) % 64, 128 + n % 64]

/-- The standard base64 alphabet. -/
def base64Alphabet : List Char :=
  String.toList "ABCDEFGHIJKLMNOPQRSTUVWXYZabcdefghijklmnopqrstuvwxyz0123456789+/"

/-- The base64 digit for a 6-bit value. -/
def base64Digit (n : Nat) : Char := base64Alphabet.getD n '?'

/-- Standard base64 encoding of a byte sequence, three bytes at a time, with
`=` padding. -/
def base64Chunks : List Nat → List Char
  | b0 :: b1 :: b2 :: rest =>
    base64Digit (b0 / 4) :: base64Digit ((b0 % 4) * 16 + b1 / 16) ::
      base64Digit ((b1 % 16) * 4 + b2 / 64) :: base64Digit (b2 % 64) :: base64Chunks rest
  | [b0, b1] => [base64Digit (b0 / 4), base64Digit ((b0 % 4) * 16 + b1 / 16),
      base64Digit ((b1 % 16) * 4), '=']
  | [b0] => [base64Digit (b0 / 4), base64Digit ((b0 % 4) * 16), '=', '=']
  | [] => []

/-- `Buffer.from(code).toString('base64')`: the content fingerprint of a
generated quiz. -/
def quizHash (code : String) : String :=
  String.mk (base64Chunks ((code.toList.map utf8CharBytes).flatten))

/-- The ways a quiz pipeline run can fail: `generateQuizContent` threw after
its internal retries (`genFail`), the `'Failed to generate unique quiz
content'` error (`uniqueFail`), `generateQuizImage` threw (`renderFail`), or
the upload loop exhausted its retries (`uploadFail`). -/
inductive QuizErr where
  | genFail : QuizErr
  | uniqueFail : QuizErr
  | renderFail : QuizErr
  | uploadFail : QuizErr
deriving Repr, DecidableEq

deriving instance DecidableEq for Except

/-- Observable result of one quiz pipeline run: the fingerprints written to
the deduplication store during the run, the quiz content in scope at the end
(the `quizData` of a successful response), and the outcome (`ok` carries the
public image URL). -/
structure QuizRunResult where
  committed : List String
  quizData : Option String
  outcome : Except QuizErr String
deriving Repr, DecidableEq

/-- The uniqueness loop of `generateGoQuizLogic`, by structural recursion on
`fuel = 3 - attempts`.  `gens i` is the outcome of the `i`-th
`generateQuizContent` call: `none` when it threw (propagating out of the
loop), `some code` for generated content.  On unique content the hash is
appended to the store and the loop exits; on a duplicate the content is kept
and `attempts` is incremented.  Returns the content and the fingerprints
committed. -/
def quizUniqueLoop (used : List String) (gens : Nat → Option String)
    : Nat → Nat → Option String → Except QuizErr (Option String × List String)
  | 0, _, content => Except.ok (content, [])
  | fuel + 1, i, _ =>
    match gens i with
    | none => Except.error QuizErr.genFail
    | some code =>
      if quizHash code ∈ used then
        quizUniqueLoop used gens fuel (i + 1) (some code)
      else
        Except.ok (some code, [quizHash code])

/-- The Supabase upload retry loop: up to 3 attempts, succeeding as soon as
one attempt succeeds.  `uploads i` is the outcome of the `i`-th attempt. -/
def uploadLoopGo (uploads : Nat → Bool) : Nat → Nat → Bool
  | 0, _ => false
  | fuel + 1, i => if uploads i then true else uploadLoopGo uploads fuel (i + 1)

/-- One run of `generateGoQuizLogic` (and of the identical
`generatePythonQuizLogic`): uniqueness loop with 3 attempts, the
`!quizContent` check, image rendering (`renderOk`), and the upload retry
loop with 3 attempts. -/
def generateGoQuizLogicRun (used : List String) (gens : Nat → Option String)
    (renderOk : Bool) (uploads : Nat → Bool) : QuizRunResult :=
  match quizUniqueLoop used gens 3 0 none with
  | Except.error e => ⟨[], none, Except.error e⟩
  | Except.ok (none, committed) => ⟨committed, none, Except.error QuizErr.uniqueFail⟩
  | Except.ok (some code, committed) =>
    if renderOk then
      if uploadLoopGo uploads 3 0 then ⟨committed, some code, Except.ok "publicUrl"⟩
      else ⟨committed, some code, Except.error QuizErr.uploadFail⟩
    else ⟨committed, some code, Except.error QuizErr.renderFail⟩

/-! ## Theorems -/

theorem publishLoopGo_calls_le (oracle : Nat → PublishResult) :
    ∀ fuel attempts, (publishLoopGo oracle fuel attempts).calls ≤ fuel := by
  intro fuel
  induction fuel with
  | zero => intro attempts; simp [publishLoopGo]
  | succ n ih =>
    intro attempts
    simp only [publishLoopGo]
    cases h : oracle attempts with
    | ok => simp
    | err c =>
      cases c with
      | none => simp
      | some code =>
        by_cases hp : isProcessingCode code
        · simp only [hp, if_true]
          by_cases hf : n = 0
          · simp [hf]
          · simp only [hf, if_false]
            have := ih (attempts + 1)
            omega
        · simp [hp]

theorem publishLoopGo_retry_reason (oracle : Nat → PublishResult) :
    ∀ fuel attempts k, (publishLoopGo oracle fuel attempts).calls > k + 1 →
      isProcessingError (oracle (attempts + k)) = true ∧ k + 1 < fuel := by
  intro fuel
  induction fuel with
  | zero => intro attempts k h; simp [publishLoopGo] at h
  | succ n ih =>
    intro attempts k h
    simp only [publishLoopGo] at h
    cases ho : oracle attempts with
    | ok => rw [ho] at h; simp at h
    | err c =>
      rw [ho] at h
      cases c with
      | none => simp at h
      | some code =>
        by_cases hp : isProcessingCode code
        · simp only [hp, if_true] at h
          by_cases hf : n = 0
          · simp [hf] at h
          · simp only [hf, if_false] at h
            cases k with
            | zero =>
              refine ⟨?_, by omega⟩
              simp only [Nat.add_zero, ho, isProcessingError, hp]
            | succ m =>
              have hrest : (publishLoopGo oracle n (attempts + 1)).calls > m + 1 := by
                omega
              have := ih (attempts + 1) m hrest
              constructor
              · have harr : attempts + 1 + m = attempts + (m + 1) := by omega
                rw [harr] at this
                exact this.1
              · omega
        · simp [hp] at h

theorem publishLoopGo_wait_values (oracle : Nat → PublishResult) :
    ∀ fuel attempts k w, (publishLoopGo oracle fuel attempts).waits.get? k = some w →
      w = min (5000 * (attempts + k + 1)) 30000 := by
  intro fuel
  induction fuel with
  | zero => intro attempts k w h; simp [publishLoopGo] at h
  | succ n ih =>
    intro attempts k w h
    simp only [publishLoopGo] at h
    cases ho : oracle attempts with
    | ok => rw [ho] at h; simp at h
    | err c =>
      rw [ho] at h
      cases c with
      | none => simp at h
      | some code =>
        by_cases hp : isProcessingCode code
        · simp only [hp, if_true] at h
          by_cases hf : n = 0
          · simp [hf] at h
          · simp only [hf, if_false] at h
            cases k with
            | zero =>
              rw [List.get?_cons_zero] at h
              have : w = min (5000 * (attempts + 1)) 30000 := by
                exact (Option.some.injEq _ _ ▸ h).symm
              omega
            | succ m =>
              rw [List.get?_cons_succ] at h
              have := ih (attempts + 1) m w h
              have harr : attempts + 1 + m + 1 = attempts + (m + 1) + 1 := by omega
              rw [harr] at this
              exact this
        · simp [hp] at h

/-- Membership in the `Set`-union fold, generalized over the accumulator. -/
theorem mem_jsSetDedup_fold (x : String) :
    ∀ (xs acc : List String),
      (x ∈ xs.foldl (fun acc y => if y ∈ acc then acc else acc ++ [y]) acc) ↔
        x ∈ acc ∨ x ∈ xs := by
  intro xs
  induction xs with
  | nil => intro acc; simp
  | cons y ys ih =>
    intro acc
    simp only [List.foldl_cons]
    rw [ih]
    by_cases hy : y ∈ acc
    · simp only [if_pos hy]
      constructor
      · rintro (h | h)
        · exact Or.inl h
        · exact Or.inr (List.mem_cons_of_mem y h)
      · rintro (h | h)
        · exact Or.inl h
        · rcases List.mem_cons.mp h with h | h
          · exact Or.inl (h ▸ hy)
          · exact Or.inr h
    · simp only [if_neg hy, List.mem_append, List.mem_singleton, List.mem_cons]
      tauto

/-- Membership in `[...new Set(xs)]` is membership in `xs`. -/
theorem mem_jsSetDedup (x : String) (xs : List String) :
    x ∈ jsSetDedup xs ↔ x ∈ xs := by
  rw [jsSetDedup, mem_jsSetDedup_fold]
  simp

/-- Membership in the stored set after a successful `appendUsedHeadlines`. -/
theorem mem_appendUsedHeadlines (stored S : List String) (x : String) :
    x ∈ appendUsedHeadlines stored S ↔ (x ∈ stored ∨ x ∈ S) := by
  rw [appendUsedHeadlines]
  by_cases hS : S.isEmpty
  · rw [if_pos hS]
    rw [List.isEmpty_iff] at hS
    subst hS
    simp
  · rw [if_neg hS, mem_jsSetDedup, List.mem_append]

/-- Claim C3: for every fingerprint set `S`, `addAll(S); addAll(S)` leaves the
store's observable membership identical to a single `addAll(S)`; the write
merges the new fingerprints with the stored set as a set union (membership in
the result is membership in the old store or in `S`), and an empty argument
is a no-op that returns normally without writing. -/
theorem dedup_addAll_idempotent (stored S : List String) (x : String) :
    (x ∈ appendUsedHeadlines (appendUsedHeadlines stored S) S ↔
      x ∈ appendUsedHeadlines stored S) ∧
    (x ∈ appendUsedHeadlines stored S ↔ (x ∈ stored ∨ x ∈ S)) ∧
    appendUsedHeadlines stored [] = stored ∧
    (∀ (r : RedisReadOutcome (List String)) (w : RedisWriteOutcome),
      appendUsedHeadlinesRun r w stored [] = Except.ok stored) := by
  refine ⟨?_, mem_appendUsedHeadlines stored S x, ?_, ?_⟩
  · rw [mem_appendUsedHeadlines, mem_appendUsedHeadlines]
    tauto
  · simp [appendUsedHeadlines]
  · intro r w
    simp [appendUsedHeadlinesRun, appendUsedHeadlinesBody]

/-- Claim C4: the deduplication store is fail-open.  A thrown backing-store
read yields the empty used set (so the duplicate filter removes nothing); a
call of the append operation returns normally for every read outcome and
write outcome; and a thrown backing-store write is swallowed, leaving the
stored value unchanged. -/
theorem dedup_fail_open (r : RedisReadOutcome (List String)) (w : RedisWriteOutcome)
    (stored headlines posts : List String) :
    readUsedHeadlines RedisReadOutcome.threw = [] ∧
    filterUnusedPosts posts (readUsedHeadlines RedisReadOutcome.threw) = posts ∧
    (∃ s, appendUsedHeadlinesRun r w stored headlines = Except.ok s) ∧
    appendUsedHeadlinesRun r RedisWriteOutcome.threw stored headlines = Except.ok stored := by
  refine ⟨rfl, ?_, ?_, ?_⟩
  · simp [filterUnusedPosts, readUsedHeadlines, readUsedHeadlinesBody]
  · by_cases hh : headlines.isEmpty
    · exact ⟨stored, by simp [appendUsedHeadlinesRun, appendUsedHeadlinesBody, hh]⟩
    · cases w with
      | ok =>
        exact ⟨jsSetDedup (readUsedHeadlines r ++ headlines),
          by simp [appendUsedHeadlinesRun, appendUsedHeadlinesBody, hh]⟩
      | threw =>
        exact ⟨stored, by simp [appendUsedHeadlinesRun, appendUsedHeadlinesBody, hh]⟩
  · by_cases hh : headlines.isEmpty
    · simp [appendUsedHeadlinesRun, appendUsedHeadlinesBody, hh]
    · simp [appendUsedHeadlinesRun, appendUsedHeadlinesBody, hh]

/-- Claim C1: the publish retry loop makes at most 5 publish attempts and
always terminates; the `k`-th attempt (0-indexed) is followed by a further
attempt only when its outcome is a parsed "media still processing" error
(code 9007 or 100) and fewer than 5 attempts have been made — a success, any
other error code, or an unparsable error body ends the loop immediately. -/
theorem publish_retry_bound (oracle : Nat → PublishResult) (k : Nat) :
    (publishLoop oracle).calls ≤ maxAttempts ∧
    ((publishLoop oracle).calls > k + 1 →
      isProcessingError (oracle k) = true ∧ k + 1 < maxAttempts) := by
  constructor
  · exact publishLoopGo_calls_le oracle maxAttempts 0
  · intro h
    have := publishLoopGo_retry_reason oracle maxAttempts 0 k h
    simpa using this

/-- Witness for C1 at a concrete run: an oracle answering "media still
processing" (code 9007) at every attempt makes 5 attempts, which is within
the bound, and its first attempt is followed by further ones because it was a
processing error with fewer than 5 attempts made. -/
theorem publish_retry_bound_witness :
    (publishLoop (fun _ => PublishResult.err (some 9007))).calls ≤ maxAttempts ∧
    isProcessingError ((fun _ => PublishResult.err (some 9007)) 0) = true ∧
    0 + 1 < maxAttempts := by
  have h := publish_retry_bound (fun _ => PublishResult.err (some 9007)) 0
  exact ⟨h.1, h.2 (by decide)⟩

/-- The oracle of the spec's scenario: publish attempts 1-4 fail with a
"media processing" error code and attempt 5 succeeds. -/
def processingScenario : Nat → PublishResult :=
  fun n => if n < 4 then PublishResult.err (some 9007) else PublishResult.ok

/-- Claim C2: the wait performed after the `(k+1)`-th failed "media still
processing" attempt (the `k`-th wait, 0-indexed) is
`min(5000ms * (k+1), 30000ms)`; in the scenario where attempts 1-4 fail with
processing errors and attempt 5 succeeds, the outcome is a success after
exactly the waits 5s, 10s, 15s, 20s. -/
theorem publish_wait_progression (oracle : Nat → PublishResult) (k w : Nat) :
    ((publishLoop oracle).waits.get? k = some w → w = min (5000 * (k + 1)) 30000) ∧
    ((publishLoop processingScenario).finalOk = true ∧
      (publishLoop processingScenario).calls = 5 ∧
      (publishLoop processingScenario).waits = [5000, 10000, 15000, 20000]) := by
  constructor
  · intro h
    have := publishLoopGo_wait_values oracle maxAttempts 0 k w h
    simpa using this
  · refine ⟨by decide, by decide, by decide⟩

/-- Witness for C2 at a concrete run: in the spec's scenario the first wait
is recorded as 5000ms, and the theorem identifies it as
`min(5000 * 1, 30000)`. -/
theorem publish_wait_progression_witness :
    (publishLoop processingScenario).waits.get? 0 = some 5000 ∧
    5000 = min (5000 * (0 + 1)) 30000 := by
  refine ⟨by decide, ?_⟩
  exact (publish_wait_progression processingScenario 0 5000).1 (by decide)

/-- Every headline kept by the per-post loop comes from a selected post of
the model response whose image stage succeeded. -/
theorem processSelectedGo_mem :
    ∀ (sel : List GeminiPost) (seen : List String) (h : String),
      h ∈ processSelectedGo sel seen →
        ∃ p, p ∈ sel ∧ p.originalHeadline = h ∧ p.hasValidImage = true := by
  intro sel
  induction sel with
  | nil => intro seen h hm; simp [processSelectedGo] at hm
  | cons p rest ih =>
    intro seen h hm
    simp only [processSelectedGo] at hm
    by_cases hs : p.originalHeadline ∈ seen
    · rw [if_pos hs] at hm
      obtain ⟨q, hq, he, hv⟩ := ih _ h hm
      exact ⟨q, List.mem_cons_of_mem p hq, he, hv⟩
    · rw [if_neg hs] at hm
      by_cases hv : p.hasValidImage = true
      · rw [if_pos hv] at hm
        rcases List.mem_cons.mp hm with he | hm2
        · exact ⟨p, List.mem_cons_self p rest, he.symm, hv⟩
        · obtain ⟨q, hq, he, hv2⟩ := ih _ h hm2
          exact ⟨q, List.mem_cons_of_mem p hq, he, hv2⟩
      · rw [if_neg hv] at hm
        obtain ⟨q, hq, he, hv2⟩ := ih _ h hm
        exact ⟨q, List.mem_cons_of_mem p hq, he, hv2⟩

/-- A headline kept by the per-post loop was not in the processed set the
loop started from. -/
theorem processSelectedGo_not_seen :
    ∀ (sel : List GeminiPost) (seen : List String) (h : String),
      h ∈ processSelectedGo sel seen → h ∉ seen := by
  intro sel
  induction sel with
  | nil => intro seen h hm; simp [processSelectedGo] at hm
  | cons p rest ih =>
    intro seen h hm
    simp only [processSelectedGo] at hm
    by_cases hs : p.originalHeadline ∈ seen
    · rw [if_pos hs] at hm
      exact ih _ h hm
    · rw [if_neg hs] at hm
      by_cases hv : p.hasValidImage = true
      · rw [if_pos hv] at hm
        rcases List.mem_cons.mp hm with he | hm2
        · exact he ▸ hs
        · have := ih _ h hm2
          intro hc
          exact this (List.mem_append_left _ hc)
      · rw [if_neg hv] at hm
        have := ih _ h hm
        intro hc
        exact this (List.mem_append_left _ hc)

/-- The per-post loop emits each headline at most once. -/
theorem processSelectedGo_nodup :
    ∀ (sel : List GeminiPost) (seen : List String), (processSelectedGo sel seen).Nodup := by
  intro sel
  induction sel with
  | nil => intro seen; simp [processSelectedGo]
  | cons p rest ih =>
    intro seen
    simp only [processSelectedGo]
    by_cases hs : p.originalHeadline ∈ seen
    · rw [if_pos hs]; exact ih seen
    · rw [if_neg hs]
      by_cases hv : p.hasValidImage = true
      · rw [if_pos hv]
        refine List.nodup_cons.mpr ⟨?_, ih _⟩
        intro hmem
        have := processSelectedGo_not_seen rest _ _ hmem
        exact this (List.mem_append_right _ (List.mem_singleton.mpr rfl))
      · rw [if_neg hv]; exact ih _

/-- Counterexample to claim C7.  A concrete run of the selection step: the
candidate list sent to the model is `["Real candidate headline"]`, the model
response contains a single item whose source id `"Fabricated headline"` is
not in that candidate set, `callGemini` returns the item unchanged (it only
checks that the response is an array), and the `GET` post-processing loop
passes the fabricated item downstream — it ends up in `validPostPayloads`
(its image stage succeeded) and its headline is handed to
`appendUsedHeadlines` — instead of rejecting it. -/
theorem selection_traceability_counterexample :
    callGemini (some [⟨"Fabricated headline", "Catchy rewrite", true⟩]) =
      Except.ok [⟨"Fabricated headline", "Catchy rewrite", true⟩] ∧
    processSelected [⟨"Fabricated headline", "Catchy rewrite", true⟩] =
      ["Fabricated headline"] ∧
    "Fabricated headline" ∉ ["Real candidate headline"] := by
  refine ⟨rfl, by decide, by decide⟩

/-- Claim C7 as amended: the selection post-processing validates returned
items only against the model response itself, never against the input
candidate set.  Every headline passed downstream is traceable to an item of
the model response whose image stage succeeded, duplicates within one
response are dropped (the downstream list has no duplicates), but an item
whose source id is absent from the input candidates is passed downstream
rather than rejected. -/
theorem selection_traceability_amended (sel : List GeminiPost) (h : String) :
    (h ∈ processSelected sel →
      ∃ p, p ∈ sel ∧ p.originalHeadline = h ∧ p.hasValidImage = true) ∧
    (processSelected sel).Nodup := by
  exact ⟨processSelectedGo_mem sel [] h, processSelectedGo_nodup sel []⟩

/-- Witness for the amended C7 at a concrete input: the headline kept from a
one-item response is traceable to that response. -/
theorem selection_traceability_amended_witness :
    "h1" ∈ processSelected [⟨"h1", "n1", true⟩] ∧
    (∃ p, p ∈ [(⟨"h1", "n1", true⟩ : GeminiPost)] ∧
      p.originalHeadline = "h1" ∧ p.hasValidImage = true) := by
  refine ⟨by decide, ?_⟩
  exact (selection_traceability_amended [⟨"h1", "n1", true⟩] "h1").1 (by decide)

/-- One result is pushed per entry of `body.posts`. -/
theorem postResults_length : ∀ entries : List PostEntry,
    (postResults entries).length = entries.length := by
  intro entries
  induction entries with
  | nil => rfl
  | cons e rest ih =>
    cases e with
    | missing => simp [postResults, ih]
    | payload ok => simp [postResults, ih]

/-- Claim C6: the multi-post orchestrator reports `success = true` iff every
element of the returned outcome list is a success, the outcome list always
has one entry per incoming post (a partial failure is never collapsed
without the individual outcomes), and on outcomes `[true, false]` it reports
`success = false` with both outcomes present. -/
theorem publishAll_aggregate (entries : List PostEntry) :
    ((orchestratorResponse entries).success = true ↔
      ∀ b ∈ (orchestratorResponse entries).results, b = true) ∧
    (orchestratorResponse entries).results.length = entries.length ∧
    (orchestratorResponse [PostEntry.payload true, PostEntry.payload false]).success = false ∧
    (orchestratorResponse [PostEntry.payload true, PostEntry.payload false]).results =
      [true, false] := by
  refine ⟨?_, postResults_length entries, by decide, by decide⟩
  simp only [orchestratorResponse, List.all_eq_true, id]

/-- Counterexample to claim C9.  A run in which every individual outcome
failed — a full failure, not a partial success — still returns HTTP 207,
the partial-success status, in both the multi-post orchestrator and the
fetch-and-post-all handler; full failure is never mapped to a 4xx/5xx
status there. -/
theorem status_codes_counterexample :
    (orchestratorResponse [PostEntry.payload false, PostEntry.payload false]).results =
      [false, false] ∧
    (orchestratorResponse [PostEntry.payload false, PostEntry.payload false]).success = false ∧
    (orchestratorResponse [PostEntry.payload false, PostEntry.payload false]).status = 207 ∧
    (fetchAndPostAllResponse ⟨false, some [false]⟩ ⟨false, some [false]⟩).2 = 207 := by
  decide

/-- Claim C9 as amended: full success returns 200, and any run with at least
one failed individual outcome — partial failure and full failure alike —
returns the 207 status; 4xx statuses are produced only by payload
validation (400), before any publishing. -/
theorem status_codes_amended (bodySuccess : Bool) (entries : List PostEntry)
    (ig x : PlatformEnvelope) :
    (bodySuccess = true → entries ≠ [] →
      (((postEndpoint bodySuccess entries).status = 200 ↔
          (postEndpoint bodySuccess entries).results.all id = true) ∧
        ((postEndpoint bodySuccess entries).status = 207 ↔
          (postEndpoint bodySuccess entries).results.all id = false))) ∧
    (bodySuccess = false ∨ entries = [] →
      (postEndpoint bodySuccess entries).status = 400) ∧
    ((fetchAndPostAllResponse ig x).2 = 200 ↔
      (envelopeAllOk ig && envelopeAllOk x) = true) ∧
    ((fetchAndPostAllResponse ig x).2 = 207 ↔
      (envelopeAllOk ig && envelopeAllOk x) = false) := by
  refine ⟨?_, ?_, ?_, ?_⟩
  · intro hb hne
    subst hb
    have hne2 : entries.isEmpty = false := by
      cases entries with
      | nil => exact absurd rfl hne
      | cons e rest => rfl
    simp only [postEndpoint, hne2, Bool.not_true, Bool.false_or, Bool.if_false_left]
    cases hall : (postResults entries).all id with
    | true => simp [orchestratorResponse, hall]
    | false => simp [orchestratorResponse, hall]
  · intro hinv
    rcases hinv with hb | he
    · subst hb; rfl
    · subst he; simp [postEndpoint]
  · cases hok : (envelopeAllOk ig && envelopeAllOk x) with
    | true => simp [fetchAndPostAllResponse, hok]
    | false => simp [fetchAndPostAllResponse, hok]
  · cases hok : (envelopeAllOk ig && envelopeAllOk x) with
    | true => simp [fetchAndPostAllResponse, hok]
    | false => simp [fetchAndPostAllResponse, hok]

/-- Witness for the amended C9 at concrete inputs: a valid one-post all-ok
run returns 200, and an invalid payload returns 400. -/
theorem status_codes_amended_witness :
    (postEndpoint true [PostEntry.payload true]).status = 200 ∧
    (postEndpoint false []).status = 400 := by
  have h := status_codes_amended true [PostEntry.payload true] ⟨true, some [true]⟩
    ⟨true, some [true]⟩
  have h2 := status_codes_amended false [] ⟨true, some [true]⟩ ⟨true, some [true]⟩
  exact ⟨(h.1 rfl (by decide)).1.mpr (by decide), h2.2.1 (Or.inl rfl)⟩

/-- Witness for C3 at a concrete store: repeating `addAll(["x"])` on the
store `["a"]` does not change membership, and an empty append is a no-op. -/
theorem dedup_addAll_idempotent_witness :
    ("x" ∈ appendUsedHeadlines (appendUsedHeadlines ["a"] ["x"]) ["x"] ↔
      "x" ∈ appendUsedHeadlines ["a"] ["x"]) ∧
    appendUsedHeadlines ["a"] [] = ["a"] := by
  have h := dedup_addAll_idempotent ["a"] ["x"] "x"
  exact ⟨h.1, h.2.2.1⟩

/-- Witness for C4 at concrete outcomes: a thrown read yields the empty used
set, and a thrown write is swallowed, leaving the store unchanged. -/
theorem dedup_fail_open_witness :
    readUsedHeadlines RedisReadOutcome.threw = [] ∧
    appendUsedHeadlinesRun (RedisReadOutcome.ok (some ["a"])) RedisWriteOutcome.threw
      ["a"] ["b"] = Except.ok ["a"] := by
  have h := dedup_fail_open (RedisReadOutcome.ok (some ["a"])) RedisWriteOutcome.threw
    ["a"] ["b"] []
  exact ⟨h.1, h.2.2.2⟩

/-- Witness for C6 at a concrete run: a single successful outcome gives
aggregate success with a one-entry outcome list. -/
theorem publishAll_aggregate_witness :
    (orchestratorResponse [PostEntry.payload true]).success = true ∧
    (orchestratorResponse [PostEntry.payload true]).results.length = 1 := by
  have h := publishAll_aggregate [PostEntry.payload true]
  exact ⟨h.1.mpr (by decide), h.2.1⟩

/-- Counterexample to claim C8.  A concrete caption produced by the
fetch-news caption builder (300-character description, no link): it exceeds
the 280-character microblog limit and ends with the hashtag block, but the
caption actually sent — the output of the post-x truncation — no longer ends
with that trailing block: the truncation cut text from the end, not from the
body. -/
theorem caption_truncation_counterexample :
    (buildCaption (List.replicate 300 'a') none).length > 280 ∧
    (newline2 ++ captionHashtags) <:+ buildCaption (List.replicate 300 'a') none ∧
    ¬ (newline2 ++ captionHashtags) <:+
      truncateForX (buildCaption (List.replicate 300 'a') none) ∧
    (truncateForX (buildCaption (List.replicate 300 'a') none)).length ≤ 280 := by
  decide

/-- Claim C8 as amended: the caption sent to the microblog platform always
has length at most 280 (an over-long caption becomes exactly 280 characters,
a fitting caption is sent unchanged), and the trailing link/hashtag block is
protected only at caption-construction time — the builder reserves space for
it and appends it verbatim, so every built caption ends with the hashtag
block — while the platform-level truncation cuts from the end of the string
and therefore does not preserve a trailing block of a caption that exceeds
the limit. -/
theorem caption_truncation_amended (c desc : List Char) (link : Option (List Char)) :
    (c.length > 280 → (truncateForX c).length = 280) ∧
    (c.length ≤ 280 → truncateForX c = c) ∧
    (newline2 ++ captionHashtags) <:+ buildCaption desc link := by
  refine ⟨?_, ?_, ?_⟩
  · intro hc
    rw [truncateForX, if_pos hc]
    have hd : (String.toList "...").length = 3 := rfl
    rw [List.length_append, List.length_take, hd]
    omega
  · intro hc
    rw [truncateForX, if_neg (by omega)]
  · simp only [buildCaption]
    exact List.suffix_append _ _

/-- Witness for the amended C8 at concrete inputs: a 300-character caption
truncates to exactly 280 characters, a 5-character caption is unchanged, and
a concrete built caption ends with the hashtag block. -/
theorem caption_truncation_amended_witness :
    (truncateForX (List.replicate 300 'a')).length = 280 ∧
    truncateForX (List.replicate 5 'c') = List.replicate 5 'c' ∧
    (newline2 ++ captionHashtags) <:+ buildCaption (List.replicate 10 'b') none := by
  have h := caption_truncation_amended (List.replicate 300 'a') (List.replicate 10 'b') none
  have h2 := caption_truncation_amended (List.replicate 5 'c') [] none
  exact ⟨h.1 (by decide), h2.2.1 (by decide), h.2.2⟩

/-- Unfolding equation for one iteration of the quiz uniqueness loop. -/
theorem quizUniqueLoop_succ (used : List String) (gens : Nat → Option String)
    (fuel i : Nat) (content : Option String) :
    quizUniqueLoop used gens (fuel + 1) i content =
      (match gens i with
        | none => Except.error QuizErr.genFail
        | some code =>
          if quizHash code ∈ used then quizUniqueLoop used gens fuel (i + 1) (some code)
          else Except.ok (some code, [quizHash code])) := rfl

/-- Unfolding equation for an iteration whose generation call threw. -/
theorem quizUniqueLoop_succ_none (used : List String) (gens : Nat → Option String)
    (fuel i : Nat) (content : Option String) (hg : gens i = none) :
    quizUniqueLoop used gens (fuel + 1) i content = Except.error QuizErr.genFail := by
  rw [quizUniqueLoop_succ, hg]

/-- Unfolding equation for an iteration whose generation call returned
content. -/
theorem quizUniqueLoop_succ_some (used : List String) (gens : Nat → Option String)
    (fuel i : Nat) (content : Option String) (code : String) (hg : gens i = some code) :
    quizUniqueLoop used gens (fuel + 1) i content =
      (if quizHash code ∈ used then quizUniqueLoop used gens fuel (i + 1) (some code)
        else Except.ok (some code, [quizHash code])) := by
  rw [quizUniqueLoop_succ, hg]

/-- Once the uniqueness loop holds generated content, it never reports the
content as absent. -/
theorem quizUniqueLoop_preserves_some (used : List String) (gens : Nat → Option String) :
    ∀ fuel i code l,
      quizUniqueLoop used gens fuel i (some code) ≠ Except.ok (none, l) := by
  intro fuel
  induction fuel with
  | zero => intro i code l h; simp [quizUniqueLoop] at h
  | succ n ih =>
    intro i code l h
    cases hg : gens i with
    | none =>
      rw [quizUniqueLoop_succ_none used gens n i (some code) hg] at h
      simp at h
    | some c2 =>
      rw [quizUniqueLoop_succ_some used gens n i (some code) c2 hg] at h
      by_cases hd : quizHash c2 ∈ used
      · rw [if_pos hd] at h
        exact ih (i + 1) c2 l h
      · rw [if_neg hd] at h; simp at h

/-- The only error the uniqueness loop raises is a generation failure. -/
theorem quizUniqueLoop_error_genFail (used : List String) (gens : Nat → Option String) :
    ∀ fuel i content e,
      quizUniqueLoop used gens fuel i content = Except.error e → e = QuizErr.genFail := by
  intro fuel
  induction fuel with
  | zero => intro i content e h; simp [quizUniqueLoop] at h
  | succ n ih =>
    intro i content e h
    cases hg : gens i with
    | none =>
      rw [quizUniqueLoop_succ_none used gens n i content hg] at h
      have h2 : QuizErr.genFail = e := by injection h
      exact h2.symm
    | some c2 =>
      rw [quizUniqueLoop_succ_some used gens n i content c2 hg] at h
      by_cases hd : quizHash c2 ∈ used
      · rw [if_pos hd] at h
        exact ih (i + 1) (some c2) e h
      · rw [if_neg hd] at h; simp at h

/-- The uniqueness loop as entered by the pipeline (3 attempts, no content
yet) never reports the content as absent. -/
theorem quizUniqueLoop_start_not_none (used : List String) (gens : Nat → Option String) :
    ∀ l, quizUniqueLoop used gens 3 0 none ≠ Except.ok (none, l) := by
  intro l h
  cases hg : gens 0 with
  | none =>
    rw [show (3 : Nat) = 2 + 1 from rfl,
      quizUniqueLoop_succ_none used gens 2 0 none hg] at h
    simp at h
  | some c =>
    rw [show (3 : Nat) = 2 + 1 from rfl,
      quizUniqueLoop_succ_some used gens 2 0 none c hg] at h
    by_cases hd : quizHash c ∈ used
    · rw [if_pos hd] at h
      exact quizUniqueLoop_preserves_some used gens 2 1 c l h
    · rw [if_neg hd] at h; simp at h

/-- The fields of a pipeline run whose uniqueness loop produced content. -/
theorem generateGoQuizLogicRun_of_loop_ok (used : List String) (gens : Nat → Option String)
    (renderOk : Bool) (uploads : Nat → Bool) (code : String) (l : List String)
    (h : quizUniqueLoop used gens 3 0 none = Except.ok (some code, l)) :
    generateGoQuizLogicRun used gens renderOk uploads =
      ⟨l, some code,
        if renderOk then
          (if uploadLoopGo uploads 3 0 then Except.ok "publicUrl"
            else Except.error QuizErr.uploadFail)
        else Except.error QuizErr.renderFail⟩ := by
  simp only [generateGoQuizLogicRun, h]
  cases renderOk with
  | false => rfl
  | true =>
    by_cases hu : uploadLoopGo uploads 3 0
    · simp [hu]
    · simp [hu]

/-- The fingerprints committed by a quiz pipeline run are decided entirely
by the uniqueness loop, before the image stage runs. -/
theorem generateGoQuizLogicRun_committed (used : List String) (gens : Nat → Option String)
    (renderOk : Bool) (uploads : Nat → Bool) :
    (generateGoQuizLogicRun used gens renderOk uploads).committed =
      (match quizUniqueLoop used gens 3 0 none with
        | Except.error _ => []
        | Except.ok (_, l) => l) := by
  simp only [generateGoQuizLogicRun]
  cases hq : quizUniqueLoop used gens 3 0 none with
  | error e => rfl
  | ok p =>
    obtain ⟨c, l⟩ := p
    cases c with
    | none => rfl
    | some code =>
      cases renderOk with
      | false => rfl
      | true =>
        by_cases hu : uploadLoopGo uploads 3 0
        · simp [hu]
        · simp [hu]

/-- Counterexample to claim C5.  A concrete quiz pipeline run (empty used
set, content generated on the first attempt, image rendering fails): the
content hash is committed to the deduplication store during the uniqueness
loop, yet the run ends in a render failure and never produces a usable
artifact — the fingerprint was committed before the item's image was
produced. -/
theorem commit_after_use_counterexample :
    (generateGoQuizLogicRun [] (fun _ => some "ch := make(chan int)") false
        (fun _ => false)).committed = [quizHash "ch := make(chan int)"] ∧
    (generateGoQuizLogicRun [] (fun _ => some "ch := make(chan int)") false
        (fun _ => false)).outcome = Except.error QuizErr.renderFail := by
  decide

/-- Claim C5 as amended: the two pipelines commit fingerprints at different
points.  In the news pipeline, a headline is committed only for items whose
image was produced and judged usable (commit-after-use).  In the quiz
pipelines, the content hash is committed inside the uniqueness loop — as
soon as freshly generated content is found not to be a duplicate and before
the image is rendered or uploaded — so the committed fingerprints of a run
do not depend on the render or upload outcomes at all. -/
theorem commit_points_amended (used : List String) (gens : Nat → Option String)
    (r1 r2 : Bool) (u1 u2 : Nat → Bool) (sel : List GeminiPost) (h : String) :
    (h ∈ processSelected sel →
      ∃ p, p ∈ sel ∧ p.originalHeadline = h ∧ p.hasValidImage = true) ∧
    (generateGoQuizLogicRun used gens r1 u1).committed =
      (generateGoQuizLogicRun used gens r2 u2).committed := by
  refine ⟨processSelectedGo_mem sel [] h, ?_⟩
  rw [generateGoQuizLogicRun_committed, generateGoQuizLogicRun_committed]

/-- Witness for the amended C5 at concrete inputs: the news-side commit of a
one-item selection is traceable to a valid-image item, and a quiz run's
committed fingerprints are unchanged between a failing and a succeeding
image stage. -/
theorem commit_points_amended_witness :
    (∃ p, p ∈ [(⟨"h9", "n9", true⟩ : GeminiPost)] ∧
      p.originalHeadline = "h9" ∧ p.hasValidImage = true) ∧
    (generateGoQuizLogicRun [] (fun _ => some "q") false (fun _ => false)).committed =
      (generateGoQuizLogicRun [] (fun _ => some "q") true (fun _ => true)).committed := by
  have h := commit_points_amended [] (fun _ => some "q") false true (fun _ => false)
    (fun _ => true) [⟨"h9", "n9", true⟩] "h9"
  exact ⟨h.1 (by decide), h.2⟩

/-- Claim C10: the `'Failed to generate unique quiz content'` error is
unreachable (for every run, whatever the generation, render and upload
outcomes), and when all three uniqueness attempts generate content whose
hash is already in the used set, the pipeline proceeds with the last
generated (duplicate) quiz: nothing is committed to the store, the last
generated content is the run's quiz data, and the outcome is exactly that of
the image render and upload stages. -/
theorem quiz_duplicate_exhaustion (used : List String) (gens : Nat → Option String)
    (renderOk : Bool) (uploads : Nat → Bool) (g0 g1 g2 : String) :
    (generateGoQuizLogicRun used gens renderOk uploads).outcome ≠
      Except.error QuizErr.uniqueFail ∧
    (quizHash g0 ∈ used → quizHash g1 ∈ used → quizHash g2 ∈ used →
      generateGoQuizLogicRun used
          (fun i => if i = 0 then some g0 else if i = 1 then some g1 else some g2)
          renderOk uploads =
        ⟨[], some g2,
          if renderOk then
            (if uploadLoopGo uploads 3 0 then Except.ok "publicUrl"
              else Except.error QuizErr.uploadFail)
          else Except.error QuizErr.renderFail⟩) := by
  constructor
  · simp only [generateGoQuizLogicRun]
    cases hq : quizUniqueLoop used gens 3 0 none with
    | error e =>
      have he := quizUniqueLoop_error_genFail used gens 3 0 none e hq
      subst he
      simp
    | ok p =>
      obtain ⟨c, l⟩ := p
      cases c with
      | none => exact absurd hq (quizUniqueLoop_start_not_none used gens l)
      | some code =>
        cases renderOk with
        | false => simp
        | true =>
          by_cases hu : uploadLoopGo uploads 3 0
          · simp [hu]
          · simp [hu]
  · intro h0 h1 h2
    have hg0 : (fun i => if i = 0 then some g0 else if i = 1 then some g1 else some g2)
        (0 : Nat) = some g0 := rfl
    have hg1 : (fun i => if i = 0 then some g0 else if i = 1 then some g1 else some g2)
        (1 : Nat) = some g1 := rfl
    have hg2 : (fun i => if i = 0 then some g0 else if i = 1 then some g1 else some g2)
        (2 : Nat) = some g2 := rfl
    have hloop : quizUniqueLoop used
        (fun i => if i = 0 then some g0 else if i = 1 then some g1 else some g2) 3 0 none =
          Except.ok (some g2, []) := by
      rw [show (3 : Nat) = 2 + 1 from rfl,
        quizUniqueLoop_succ_some used _ 2 0 none g0 hg0, if_pos h0,
        show (2 : Nat) = 1 + 1 from rfl,
        quizUniqueLoop_succ_some used _ 1 (0 + 1) (some g0) g1 hg1, if_pos h1,
        show (1 : Nat) = 0 + 1 from rfl,
        quizUniqueLoop_succ_some used _ 0 (0 + 1 + 1) (some g1) g2 hg2, if_pos h2]
      rfl
    exact generateGoQuizLogicRun_of_loop_ok used _ renderOk uploads g2 [] hloop

/-- Witness for C10 at a concrete run: with all three generated quizzes
already used and a succeeding image stage, the run succeeds with the last
duplicate quiz and commits nothing. -/
theorem quiz_duplicate_exhaustion_witness :
    (generateGoQuizLogicRun [quizHash "a", quizHash "b", quizHash "c"]
        (fun _ => some "m") true (fun _ => true)).outcome ≠
      Except.error QuizErr.uniqueFail ∧
    generateGoQuizLogicRun [quizHash "a", quizHash "b", quizHash "c"]
        (fun i => if i = 0 then some "a" else if i = 1 then some "b" else some "c")
        true (fun _ => true) =
      ⟨[], some "c",
        if true then
          (if uploadLoopGo (fun _ => true) 3 0 then Except.ok "publicUrl"
            else Except.error QuizErr.uploadFail)
        else Except.error QuizErr.renderFail⟩ := by
  have h := quiz_duplicate_exhaustion [quizHash "a", quizHash "b", quizHash "c"]
    (fun _ => some "m") true (fun _ => true) "a" "b" "c"
  exact ⟨h.1, h.2 (by decide) (by decide) (by decide)⟩

end NewsApp
